import Mathlib

/-!
A shallow embedding of the gomodx/replay HTTP replay transport.

The Go sources modelled here are `har.go` (HAR data model, request/response
factories, request cloning) and the replay transport file (fingerprinting via
`HashRequest`, the replay cache, `RoundTrip`, HAR loading options, and the
round-trip debugger).

Modelling conventions:
- byte slices and wire data are modelled as `String`, identifying characters
  with bytes (all modelled data is ASCII);
- Go `map[string]T` values are modelled as association lists with unique keys,
  written only through `mapInsert` (Go map assignment semantics); iteration
  order over a Go map is randomized, so code that ranges over a map is
  parameterized by an explicit iteration order;
- `io.ReadCloser` request bodies are modelled as `Option String`: `none` covers
  both `nil` and `http.NoBody`, `some bs` a stream whose remaining content is
  `bs`;
- in-place mutation of a request becomes explicit value passing: a Go function
  mutating `r` is modelled as returning the updated request;
- external library functions used by the code (crypto/sha256, encoding/hex,
  encoding/base64, net/http serialization via httputil.DumpRequestOut,
  github.com/pkg/errors) are implemented here following their documented
  behavior, since the fingerprints and error values of the repository are
  defined in terms of them.
-/

set_option maxRecDepth 1000000

namespace Replay

/-! ## SHA-256 (crypto/sha256) and hex encoding (encoding/hex) -/

/-- Truncate to a 32-bit word. -/
def w32 (n : Nat) : Nat := n % 4294967296

/-- Rotate a 32-bit word right by `n` bits. -/
def rotr32 (n x : Nat) : Nat := w32 ((x >>> n) ||| (x <<< (32 - n)))

/-- Logical right shift of a 32-bit word. -/
def shr32 (n x : Nat) : Nat := x >>> n

def bsig0 (x : Nat) : Nat := Nat.xor (rotr32 2 x) (Nat.xor (rotr32 13 x) (rotr32 22 x))

def bsig1 (x : Nat) : Nat := Nat.xor (rotr32 6 x) (Nat.xor (rotr32 11 x) (rotr32 25 x))

def ssig0 (x : Nat) : Nat := Nat.xor (rotr32 7 x) (Nat.xor (rotr32 18 x) (shr32 3 x))

def ssig1 (x : Nat) : Nat := Nat.xor (rotr32 17 x) (Nat.xor (rotr32 19 x) (shr32 10 x))

def chF (x y z : Nat) : Nat := Nat.xor (Nat.land x y) (Nat.land (Nat.xor x 4294967295) z)

def majF (x y z : Nat) : Nat := Nat.xor (Nat.land x y) (Nat.xor (Nat.land x z) (Nat.land y z))

/-- The sixty-four SHA-256 round constants (FIPS 180-4 section 4.2.2, written
in decimal). -/
def sha256K : List Nat :=
  [1116352408, 1899447441, 3049323471, 3921009573, 961987163, 1508970993,
   2453635748, 2870763221, 3624381080, 310598401, 607225278, 1426881987,
   1925078388, 2162078206, 2614888103, 3248222580, 3835390401, 4022224774,
   264347078, 604807628, 770255983, 1249150122, 1555081692, 1996064986,
   2554220882, 2821834349, 2952996808, 3210313671, 3336571891, 3584528711,
   113926993, 338241895, 666307205, 773529912, 1294757372, 1396182291,
   1695183700, 1986661051, 2177026350, 2456956037, 2730485921, 2820302411,
   3259730800, 3345764771, 3516065817, 3600352804, 4094571909, 275423344,
   430227734, 506948616, 659060556, 883997877, 958139571, 1322822218,
   1537002063, 1747873779, 1955562222, 2024104815, 2227730452, 2361852424,
   2428436474, 2756734187, 3204031479, 3329325298]

/-- The SHA-256 initial hash state (FIPS 180-4 section 5.3.3, in decimal). -/
def sha256H0 : List Nat :=
  [1779033703, 3144134277, 1013904242, 2773480762, 1359893119, 2600822924, 528734635, 1541459225]

/-- Big-endian bytes of `n`, `k` bytes wide. -/
def beBytes : Nat → Nat → List Nat
  | 0, _ => []
  | Nat.succ k, n => (n >>> (8 * k)) % 256 :: beBytes k n

/-- SHA-256 padding: append 0x80, zeros, and the 64-bit big-endian bit length. -/
def sha256Pad (msg : List Nat) : List Nat :=
  let l := msg.length
  let zeros := (64 - ((l + 9) % 64)) % 64
  msg ++ (128 :: List.replicate zeros 0) ++ beBytes 8 (8 * l)

/-- Combine big-endian 4-byte groups into 32-bit words. -/
def bytesToWords : List Nat → List Nat
  | b0 :: b1 :: b2 :: b3 :: rest => (((b0 * 256 + b1) * 256 + b2) * 256 + b3) :: bytesToWords rest
  | _ => []

/-- Split a word list into 16-word blocks (the input length is a multiple of 16). -/
def toBlocks : List Nat → List (List Nat)
  | [] => []
  | w0 :: w1 :: w2 :: w3 :: w4 :: w5 :: w6 :: w7 ::
    w8 :: w9 :: w10 :: w11 :: w12 :: w13 :: w14 :: w15 :: rest =>
    [w0, w1, w2, w3, w4, w5, w6, w7, w8, w9, w10, w11, w12, w13, w14, w15] :: toBlocks rest
  | ws => [ws]

/-- Word at index `i`, defaulting to zero. -/
def wAt (l : List Nat) (i : Nat) : Nat := l.getD i 0

/-- Message schedule: extend sixteen words by `fuel` more words. -/
def extendSchedule (acc : List Nat) : Nat → List Nat
  | 0 => acc
  | Nat.succ fuel =>
    let i := acc.length
    let nw := w32 (ssig1 (wAt acc (i - 2)) + wAt acc (i - 7) + ssig0 (wAt acc (i - 15)) + wAt acc (i - 16))
    extendSchedule (acc ++ [nw]) fuel

/-- One SHA-256 compression round. -/
def sha256Round (st : Nat × Nat × Nat × Nat × Nat × Nat × Nat × Nat) (kw : Nat × Nat) :
    Nat × Nat × Nat × Nat × Nat × Nat × Nat × Nat :=
  match st with
  | (a, b, c, d, e, f, g, h) =>
    let t1 := w32 (h + bsig1 e + chF e f g + kw.1 + kw.2)
    let t2 := w32 (bsig0 a + majF a b c)
    (w32 (t1 + t2), a, b, c, w32 (d + t1), e, f, g)

/-- Compress one 16-word block into the hash state. -/
def sha256Compress (h : List Nat) (block : List Nat) : List Nat :=
  let ws := extendSchedule block 48
  let init := (wAt h 0, wAt h 1, wAt h 2, wAt h 3, wAt h 4, wAt h 5, wAt h 6, wAt h 7)
  match (sha256K.zip ws).foldl sha256Round init with
  | (a, b, c, d, e, f, g, hh) =>
    [w32 (wAt h 0 + a), w32 (wAt h 1 + b), w32 (wAt h 2 + c), w32 (wAt h 3 + d),
     w32 (wAt h 4 + e), w32 (wAt h 5 + f), w32 (wAt h 6 + g), w32 (wAt h 7 + hh)]

/-- SHA-256 digest of a byte list, as 32 bytes (FIPS 180-4; crypto/sha256). -/
def sha256 (msg : List Nat) : List Nat :=
  let blocks := toBlocks (bytesToWords (sha256Pad msg))
  let hfinal := blocks.foldl sha256Compress sha256H0
  hfinal.flatMap (beBytes 4)

/-- Lowercase hex digit. -/
def hexDigit (n : Nat) : Char :=
  if n < 10 then Char.ofNat (48 + n) else Char.ofNat (87 + n)

/-- Lowercase hex encoding of a byte list (hex.EncodeToString). -/
def hexEncode (bs : List Nat) : String :=
  String.mk (bs.flatMap (fun b => [hexDigit (b / 16), hexDigit (b % 16)]))

/-- Bytes of a string; the model identifies characters with bytes. -/
def strBytes (s : String) : List Nat := s.toList.map Char.toNat

/-- Hex-encoded SHA-256 of a string: the fingerprint digest computed by
`hex.EncodeToString(rootHash.Sum(nil))` after writing the dump into a
`sha256.New()` hash. -/
def sha256Hex (s : String) : String := hexEncode (sha256 (strBytes s))

/-! ## net/http header model (map[string][]string with canonicalized keys) -/

/-- An `http.Header`. Go stores it as `map[string][]string`; the model keeps the
entries as an association list with unique keys. The list order carries no
information (a Go map is unordered): every observation of a header made by the
modelled code either looks a key up or sorts the keys before serializing. -/
abbrev HttpHeader := List (String × List String)

/-- Token characters accepted in header field names (textproto validHeaderFieldByte):
alphanumerics and the characters of the RFC 7230 token set. -/
def isTokenChar (c : Char) : Bool :=
  c.isAlphanum ∨
    [33, 35, 36, 37, 38, 39, 42, 43, 45, 46, 94, 95, 96, 124, 126].contains c.toNat

/-- Case-map pass of textproto.CanonicalMIMEHeaderKey: uppercase after start or
a hyphen, lowercase otherwise. -/
def canonAux (upper : Bool) : List Char → List Char
  | [] => []
  | c :: rest =>
    let c2 := if upper ∧ 97 ≤ c.toNat ∧ c.toNat ≤ 122 then Char.ofNat (c.toNat - 32)
      else if ¬ upper ∧ 65 ≤ c.toNat ∧ c.toNat ≤ 90 then Char.ofNat (c.toNat + 32)
      else c
    c2 :: canonAux (c2 = Char.ofNat 45) rest

/-- textproto.CanonicalMIMEHeaderKey: returned unchanged when it holds an invalid
byte, canonically cased otherwise. -/
def canonicalMIMEHeaderKey (s : String) : String :=
  if s.toList.all isTokenChar then String.mk (canonAux true s.toList) else s

/-- Append a value under an already-canonical key (textproto MIMEHeader.Add on the
underlying map: appended to the existing slice, or a fresh entry). -/
def headerAddC (ck v : String) : HttpHeader → HttpHeader
  | [] => [(ck, [v])]
  | (k, vs) :: rest => if k = ck then (k, vs ++ [v]) :: rest else (k, vs) :: headerAddC ck v rest

/-- http.Header.Add. -/
def headerAdd (h : HttpHeader) (key v : String) : HttpHeader :=
  headerAddC (canonicalMIMEHeaderKey key) v h

/-- Delete an already-canonical key (Go `delete(h, ck)`). -/
def headerDelC (ck : String) (h : HttpHeader) : HttpHeader :=
  h.filter (fun kv => kv.1 ≠ ck)

/-- http.Header.Del. -/
def headerDel (h : HttpHeader) (key : String) : HttpHeader :=
  headerDelC (canonicalMIMEHeaderKey key) h

/-- Membership of an already-canonical key. -/
def headerHasKeyC (h : HttpHeader) (ck : String) : Bool :=
  h.any (fun kv => kv.1 = ck)

/-- Membership test `_, ok := h[textproto.CanonicalMIMEHeaderKey(key)]`. -/
def headerHasKey (h : HttpHeader) (key : String) : Bool :=
  headerHasKeyC h (canonicalMIMEHeaderKey key)

/-- http.Header.Get: first value stored under the canonical key, or the empty
string. -/
def headerGet (h : HttpHeader) (key : String) : String :=
  match h.find? (fun kv => kv.1 = canonicalMIMEHeaderKey key) with
  | some (_, v :: _) => v
  | _ => ""

/-! ## net/url URLs -/

/-- The parts of a `url.URL` used by the modelled code. -/
structure URL where
  scheme : String
  host : String
  path : String
  query : String
deriving DecidableEq, Repr

/-- Split a character list at the first separator drawn from `seps`. -/
def splitAtFirst (seps : List Char) (cs : List Char) : List Char × List Char :=
  (cs.takeWhile (fun c => ¬ seps.contains c), cs.dropWhile (fun c => ¬ seps.contains c))

/-- Parse `host[/path][?query]`. -/
def parseAfterScheme (cs : List Char) : URL → URL := fun u =>
  let hp := splitAtFirst [Char.ofNat 47, Char.ofNat 63] cs
  let pq := splitAtFirst [Char.ofNat 63] hp.2
  { u with host := String.mk hp.1, path := String.mk pq.1,
           query := String.mk (pq.2.drop 1) }

/-- Parse `[/path][?query]` of a scheme-less reference. -/
def parseRelative (cs : List Char) : URL :=
  let pq := splitAtFirst [Char.ofNat 63] cs
  { scheme := "", host := "", path := String.mk pq.1, query := String.mk (pq.2.drop 1) }

/-- Split at the first occurrence of the three characters `://`, giving the
scheme part and the rest. -/
def splitScheme : List Char → Option (List Char × List Char)
  | [] => none
  | c :: rest =>
    if c = Char.ofNat 58 ∧ rest.take 2 = [Char.ofNat 47, Char.ofNat 47] then
      some ([], rest.drop 2)
    else
      match splitScheme rest with
      | some (pre, post) => some (c :: pre, post)
      | none => none

/-- Model of url.Parse restricted to the shapes the repository uses: it fails on
ASCII control characters, splits `scheme://host/path?query`, and treats an input
without `://` as a relative reference. Character escaping is not modelled (the
modelled inputs contain no escapes). -/
def urlParse (s : String) : Option URL :=
  if s.toList.any (fun c => c.toNat < 32 ∨ c.toNat = 127) then none
  else
    match splitScheme s.toList with
    | none => some (parseRelative s.toList)
    | some (scheme, rest) =>
      some (parseAfterScheme rest { scheme := String.mk scheme, host := "", path := "", query := "" })

/-! ## net/http request and response values -/

/-- The fields of an `http.Request` read or written by the modelled code.
`GetBody` is omitted: no modelled code path reads it. -/
structure HttpRequest where
  method : String
  url : Option URL
  header : HttpHeader
  proto : String
  protoMajor : Nat
  protoMinor : Nat
  body : Option String
  contentLength : Int
  host : String
deriving DecidableEq, Repr

/-- The fields of an `http.Response` written by `Response.Factory`. -/
structure HttpResponse where
  status : String
  statusCode : Int
  proto : String
  protoMajor : Nat
  protoMinor : Nat
  header : HttpHeader
  body : String
  contentLength : Int
deriving DecidableEq, Repr

/-- A request filter: `type RequestFilter func(r *http.Request)` mutates its
argument in place; the model returns the updated request. -/
abbrev RequestFilter := HttpRequest → HttpRequest

/-- Apply filters in registration order. -/
def applyFilters (filters : List RequestFilter) (r : HttpRequest) : HttpRequest :=
  filters.foldl (fun acc f => f acc) r

/-! ## httputil.DumpRequestOut

`DumpRequestOut` records the bytes the standard `http.Transport` would write for
an outgoing request. The model reproduces its observable structure: the
transport rejects a nil URL, a non-http(s) scheme, an invalid method, and a URL
with no host; the request line is written with a hard-coded `HTTP/1.1`; `Host`
and `User-Agent` are written first; the transfer framing header
(`Content-Length` or `Transfer-Encoding: chunked`) follows; the remaining
headers are written sorted by name (Header.writeSubset sorts keys), excluding
the ones already written; the transport then appends `Accept-Encoding: gzip`
when no Accept-Encoding or Range header is present and the method is not HEAD;
a blank line and the (possibly chunk-encoded) body follow. Header validity
checks on names/values and the `Connection`/`Trailer` headers are not modelled
(no modelled input exercises them). -/

/-- Byte-wise comparison of strings (Go string `<`), as used by the header sorter. -/
def charListLt : List Char → List Char → Bool
  | [], [] => false
  | [], _ :: _ => true
  | _ :: _, [] => false
  | a :: as, b :: bs =>
    if a.toNat < b.toNat then true
    else if b.toNat < a.toNat then false
    else charListLt as bs

def stringLt (a b : String) : Bool := charListLt a.toList b.toList

/-- Insert a header entry into a key-sorted list. -/
def insertSortedHeader (kv : String × List String) :
    List (String × List String) → List (String × List String)
  | [] => [kv]
  | kw :: rest => if stringLt kv.1 kw.1 then kv :: kw :: rest else kw :: insertSortedHeader kv rest

/-- Sort header entries by key, as Header.writeSubset does (keys are unique, so
any comparison sort yields the same list). -/
def sortHeaders : List (String × List String) → List (String × List String)
  | [] => []
  | kv :: rest => insertSortedHeader kv (sortHeaders rest)

/-- Replace CR and LF in a header value by spaces (headerNewlineToSpace). -/
def replaceNewlines (s : String) : String :=
  String.mk (s.toList.map (fun c => if c = Char.ofNat 10 ∨ c = Char.ofNat 13 then Char.ofNat 32 else c))

def isOWS (c : Char) : Bool := c = Char.ofNat 32 ∨ c = Char.ofNat 9

/-- Trim leading and trailing spaces and tabs (textproto.TrimString). -/
def trimOWS (s : String) : String :=
  String.mk (((s.toList.dropWhile isOWS).reverse.dropWhile isOWS).reverse)

/-- Headers excluded from the sorted block because Request.write emits them
itself (reqWriteExcludeHeader). -/
def reqWriteExcludeHeader : List String :=
  ["Host", "User-Agent", "Content-Length", "Transfer-Encoding", "Trailer"]

/-- The sorted header block written by Header.writeSubset: one line per value,
values kept in slice order under their key. -/
def headerBlock (h : HttpHeader) : String :=
  String.join ((sortHeaders (h.filter (fun kv => ¬ reqWriteExcludeHeader.contains kv.1))).map
    (fun kv => String.join (kv.2.map (fun v => kv.1 ++ ": " ++ trimOWS (replaceNewlines v) ++ "\r\n"))))

/-- net/http requestMethodUsuallyLacksBody. -/
def usuallyLacksBody (m : String) : Bool :=
  m = "GET" ∨ m = "HEAD" ∨ m = "DELETE" ∨ m = "OPTIONS" ∨ m = "PROPFIND" ∨ m = "SEARCH"

/-- net/http validMethod: non-empty and token characters only. -/
def isValidMethod (m : String) : Bool := m ≠ "" ∧ m.toList.all isTokenChar

def defaultUserAgent : String := "Go-http-client/1.1"

/-- Lowercase hex of a chunk size (fmt %x). -/
def natToHexStr (n : Nat) : String := String.mk (Nat.toDigits 16 n)

/-- The wire bytes `httputil.DumpRequestOut(r, includeBody)` records, or the
error it returns. -/
def DumpRequestOut (r : HttpRequest) (includeBody : Bool) : Except String String :=
  match r.url with
  | none => Except.error "http: nil Request.URL"
  | some u =>
    let scheme := if u.scheme = "https" then "http" else u.scheme
    if scheme ≠ "http" then Except.error ("http: unsupported protocol scheme " ++ scheme)
    else if r.method ≠ "" ∧ ¬ isValidMethod r.method then
      Except.error ("net/http: invalid method " ++ r.method)
    else if u.host = "" then Except.error "http: no Host in request URL"
    else
      let bodyBytes := r.body.getD ""
      let rawLen : Int := if r.body.isNone then 0 else if r.contentLength ≠ 0 then r.contentLength else -1
      let outLen : Int :=
        if rawLen = -1 ∧ usuallyLacksBody r.method ∧ bodyBytes = "" then 0 else rawLen
      let chunked := outLen < 0
      if 0 < outLen ∧ includeBody ∧ (bodyBytes.length : Int) ≠ outLen then
        Except.error "http: ContentLength does not match Body length"
      else
        let host := if r.host ≠ "" then r.host else u.host
        let ruri := (if u.path = "" then "/" else u.path) ++
          (if u.query ≠ "" then "?" ++ u.query else "")
        let userAgentLine :=
          let ua := if headerHasKey r.header "User-Agent" then headerGet r.header "User-Agent"
            else defaultUserAgent
          if ua = "" then "" else "User-Agent: " ++ trimOWS (replaceNewlines ua) ++ "\r\n"
        let framing :=
          if chunked then "Transfer-Encoding: chunked\r\n"
          else if 0 < outLen ∨ (outLen = 0 ∧ (r.method = "POST" ∨ r.method = "PUT" ∨ r.method = "PATCH")) then
            "Content-Length: " ++ toString outLen.toNat ++ "\r\n"
          else ""
        let gzipLine :=
          if headerGet r.header "Accept-Encoding" = "" ∧ headerGet r.header "Range" = ""
              ∧ r.method ≠ "HEAD" then
            "Accept-Encoding: gzip\r\n"
          else ""
        let bodySection :=
          if ¬ includeBody then ""
          else if chunked then
            (if bodyBytes = "" then ""
             else natToHexStr bodyBytes.length ++ "\r\n" ++ bodyBytes ++ "\r\n") ++ "0\r\n\r\n"
          else bodyBytes
        Except.ok ((if r.method = "" then "GET" else r.method) ++ " " ++ ruri ++ " HTTP/1.1\r\n"
          ++ "Host: " ++ host ++ "\r\n" ++ userAgentLine ++ framing
          ++ headerBlock r.header ++ gzipLine ++ "\r\n" ++ bodySection)

/-! ## HAR data model (har.go)

Entry metadata not read by any modelled code path (timings, addresses,
comments, cookies, query strings) is omitted from the structures. -/

/-- A HAR name/value pair (`Header` / `QueryParam` in har.go). -/
structure HarNameValue where
  name : String
  value : String
deriving DecidableEq, Repr

/-- `PostData` of a HAR request. -/
structure PostData where
  text : String
  mimeType : String
deriving DecidableEq, Repr

/-- `Request` of a HAR entry (har.go); named HarRequest to keep it apart from
the http.Request model. -/
structure HarRequest where
  method : String
  postData : PostData
  headers : List HarNameValue
  httpVersion : String
  url : String
deriving DecidableEq, Repr

/-- `ContentType` of a HAR response. -/
structure ContentType where
  size : Int
  mimeType : String
  encoding : String
  text : String
deriving DecidableEq, Repr

/-- `Response` of a HAR entry (har.go). -/
structure HarResponse where
  status : Int
  content : ContentType
  statusText : String
  headers : List HarNameValue
  httpVersion : String
deriving DecidableEq, Repr

/-- A HAR `Entry`: the request/response pair used by the replay cache. -/
structure Entry where
  request : HarRequest
  response : HarResponse
deriving DecidableEq, Repr

/-- The HAR `Log`. -/
structure Log where
  version : String
  entries : List Entry
deriving DecidableEq, Repr

/-- A parsed HAR file. -/
structure HarFile where
  log : Log
deriving DecidableEq, Repr

/-- `Headers.ToHTTPHeader`: fold the recorded pairs into an http.Header with Add. -/
def ToHTTPHeader (hs : List HarNameValue) : HttpHeader :=
  hs.foldl (fun acc h => headerAdd acc h.name h.value) []

/-! ## encoding/base64 (StdEncoding.DecodeString) -/

/-- Value of a standard-alphabet base64 symbol. -/
def b64Val (c : Char) : Option Nat :=
  if 65 ≤ c.toNat ∧ c.toNat ≤ 90 then some (c.toNat - 65)
  else if 97 ≤ c.toNat ∧ c.toNat ≤ 122 then some (c.toNat - 71)
  else if 48 ≤ c.toNat ∧ c.toNat ≤ 57 then some (c.toNat + 4)
  else if c = Char.ofNat 43 then some 62
  else if c = Char.ofNat 47 then some 63
  else none

/-- Decode 4-symbol quanta; on corrupt input, return the bytes decoded so far
and `false`, as DecodeString returns the written prefix alongside its error. -/
def base64DecodeQuanta : List Char → List Nat × Bool
  | [] => ([], true)
  | c0 :: c1 :: c2 :: c3 :: rest =>
    match b64Val c0, b64Val c1 with
    | some v0, some v1 =>
      if c2 = Char.ofNat 61 then
        if c3 = Char.ofNat 61 ∧ rest = [] then ([(v0 <<< 2) + (v1 >>> 4)], true)
        else ([], false)
      else
        match b64Val c2 with
        | some v2 =>
          if c3 = Char.ofNat 61 then
            if rest = [] then ([(v0 <<< 2) + (v1 >>> 4), ((v1 % 16) <<< 4) + (v2 >>> 2)], true)
            else ([], false)
          else
            match b64Val c3 with
            | some v3 =>
              let out := [(v0 <<< 2) + (v1 >>> 4), ((v1 % 16) <<< 4) + (v2 >>> 2),
                ((v2 % 4) <<< 6) + v3]
              let done := base64DecodeQuanta rest
              (out ++ done.1, done.2)
            | none => ([], false)
        | none => ([], false)
    | _, _ => ([], false)
  | _ => ([], false)

/-- base64.StdEncoding.DecodeString: newlines are skipped; the second component
records whether decoding succeeded. -/
def base64Decode (s : String) : List Nat × Bool :=
  base64DecodeQuanta (s.toList.filter (fun c => c ≠ Char.ofNat 13 ∧ c ≠ Char.ofNat 10))

/-- String from a byte list (the inverse of `strBytes` on byte-valued data). -/
def bytesToStr (bs : List Nat) : String := String.mk (bs.map Char.ofNat)

/-- Split a character list into the segments separated by `sep`. -/
def splitAllOn (sep : Char) : List Char → List (List Char)
  | [] => [[]]
  | c :: rest =>
    let r := splitAllOn sep rest
    if c = sep then [] :: r
    else
      match r with
      | [] => [[c]]
      | seg :: segs => (c :: seg) :: segs

/-- Parse a non-empty decimal digit string. -/
def digitsToNat (cs : List Char) : Option Nat :=
  if cs ≠ [] ∧ cs.all (fun c => 48 ≤ c.toNat ∧ c.toNat ≤ 57) then
    some (cs.foldl (fun acc c => acc * 10 + (c.toNat - 48)) 0)
  else none

/-- http.ParseHTTPVersion: major, minor, and a validity flag. -/
def ParseHTTPVersion (s : String) : Nat × Nat × Bool :=
  match s.toList with
  | 'H' :: 'T' :: 'T' :: 'P' :: '/' :: rest =>
    match splitAllOn (Char.ofNat 46) rest with
    | [a, b] =>
      match digitsToNat a, digitsToNat b with
      | some x, some y => (x, y, true)
      | _, _ => (0, 0, false)
    | _ => (0, 0, false)
  | _ => (0, 0, false)

/-- `Request.Factory` (har.go): materialize an http.Request from a recorded HAR
request. The error of url.Parse and the validity flag of ParseHTTPVersion are
discarded, as in the source; the body is always a fresh reader over the
recorded post data text. -/
def HarRequest.Factory (r : HarRequest) : HttpRequest :=
  let headers := ToHTTPHeader r.headers
  let u := urlParse r.url
  let v := ParseHTTPVersion r.httpVersion
  { method := r.method
    url := u
    header := headers
    proto := r.httpVersion
    protoMajor := v.1
    protoMinor := v.2.1
    body := some r.postData.text
    contentLength := ((strBytes r.postData.text).length : Int)
    host := headerGet headers "Host" }

/-- `Response.Factory` (har.go): materialize an http.Response from a recorded
HAR response, base64-decoding the recorded content (the decode error is
discarded, as in the source). -/
def HarResponse.Factory (r : HarResponse) : HttpResponse :=
  let body := (base64Decode r.content.text).1
  let v := ParseHTTPVersion r.httpVersion
  { status := r.statusText
    statusCode := r.status
    proto := r.httpVersion
    protoMajor := v.1
    protoMinor := v.2.1
    header := ToHTTPHeader r.headers
    body := bytesToStr body
    contentLength := (body.length : Int) }

/-! ## Request cloning and fingerprinting -/

/-- `CloneRequestWithBody` (har.go). `r2 := r.Clone(ctx)` copies the request; a
nil or NoBody body is returned as is with the original untouched. Otherwise
`b.ReadFrom(r.Body)` drains the original stream into a buffer holding its
remaining content `bs`, after which `r.Body = io.NopCloser(&b)` restores the
original with a fresh full stream and `r2.Body = io.NopCloser(bytes.NewReader(b.Bytes()))`
gives the clone an independent copy. The result is `(clone, updated original)`. -/
def CloneRequestWithBody (r : HttpRequest) : HttpRequest × HttpRequest :=
  match r.body with
  | none => (r, r)
  | some bs => ({ r with body := some bs }, { r with body := some bs })

/-- `HashRequest`: clone the request with its body, apply the filters to the
clone, dump the clone to wire form (the include-body flag reads the original
request after the clone restored its body), and hex-encode the SHA-256 of the
dump. The result pairs the Go return value with the updated original request
(whose body the clone step restored). -/
def HashRequest (r : HttpRequest) (filters : List RequestFilter) :
    Except String String × HttpRequest :=
  let pr := CloneRequestWithBody r
  let request := applyFilters filters pr.1
  match DumpRequestOut request pr.2.body.isSome with
  | Except.error e => (Except.error e, pr.2)
  | Except.ok data => (Except.ok (sha256Hex data), pr.2)

/-- `RequestToBuff`: like HashRequest but returning the raw dump; the dump error
is printed and ignored, leaving an empty buffer on failure. -/
def RequestToBuff (r : HttpRequest) (filters : List RequestFilter) : String :=
  let pr := CloneRequestWithBody r
  let request := applyFilters filters pr.1
  match DumpRequestOut request pr.2.body.isSome with
  | Except.ok data => data
  | Except.error _ => ""

/-! ## Go map operations (assignment and lookup) -/

/-- Go map assignment `m[k] = v`: replace the value of an existing key in place,
otherwise add the binding. -/
def mapInsert {α : Type} : List (String × α) → String → α → List (String × α)
  | [], k, v => [(k, v)]
  | (k1, v1) :: rest, k, v =>
    if k1 = k then (k, v) :: rest else (k1, v1) :: mapInsert rest k v

/-- Go map lookup `v, ok := m[k]`. -/
def mapLookup {α : Type} : List (String × α) → String → Option α
  | [], _ => none
  | (k1, v1) :: rest, k => if k1 = k then some v1 else mapLookup rest k

/-! ## pkg/errors -/

/-- github.com/pkg/errors Wrap and Wrapf: when the wrapped error is nil the
result is nil, otherwise the message is prepended. -/
def errorsWrap : Option String → String → Option String
  | none, _ => none
  | some e, msg => some (msg ++ ": " ++ e)

/-! ## The replay transport -/

/-- `ReplayTransport`. The debugger returns the error to report for a miss
(`none` for a nil error). -/
structure ReplayTransport where
  harFiles : List (String × HarFile)
  harResponseCache : List (String × Entry)
  requestFilters : List RequestFilter
  debugger : Option (String → HttpRequest → Option String)

/-- A `ReplayOption` may fail while configuring the transport. -/
abbrev ReplayOption := ReplayTransport → Except String ReplayTransport

/-- The zero-valued transport NewReplayTransport starts from. -/
def initialReplayTransport : ReplayTransport :=
  { harFiles := [], harResponseCache := [], requestFilters := [], debugger := none }

/-- `ReplayTransport.RoundTrip`: apply the filters to the live request in
place, hash it (HashRequest filters a clone once more), look the key up, and
either synthesize the recorded response or fail. On a miss the debugger result,
when one is installed and non-nil, is wrapped; otherwise `errors.Wrapf` is
applied to the nil error. The result pairs the response with the error, each
optional. -/
def ReplayTransport.RoundTrip (t : ReplayTransport) (request : HttpRequest) :
    Option HttpResponse × Option String :=
  let request := applyFilters t.requestFilters request
  let hres := HashRequest request t.requestFilters
  let request := hres.2
  match hres.1 with
  | Except.error e => (none, errorsWrap (some e) "failed to hash request")
  | Except.ok hashKey =>
    match mapLookup t.harResponseCache hashKey with
    | some entry => (some entry.response.Factory, none)
    | none =>
      let dbErr : Option String :=
        match t.debugger with
        | some debuggerF => debuggerF hashKey request
        | none => none
      match dbErr with
      | some e => (none, errorsWrap (some e) "no cached response for this request")
      | none =>
        (none, errorsWrap none
          ("no cached response for this request, try attaching a round trip debugger " ++ hashKey))

/-- `ReplayTransport.cacheEntry`: key the recorded entry by hashing its
materialized request with the configured filters, and store it in the response
cache. -/
def ReplayTransport.cacheEntry (t : ReplayTransport) (entry : Entry) :
    Except String ReplayTransport :=
  match (HashRequest entry.request.Factory t.requestFilters).1 with
  | Except.error e => Except.error e
  | Except.ok hashKey =>
    Except.ok { t with harResponseCache := mapInsert t.harResponseCache hashKey entry }

/-- `WithHarFile`. File access is outside the embedding, so the option takes
the `LoadHarFile` outcome as a parameter. A load failure returns immediately.
Otherwise the Go source runs `for _, entry := range entries { err = transport.cacheEntry(entry) }`
and returns the final `err`: each iteration overwrites the previous error, so
the fold below keeps only the outcome of the last processed entry. -/
def WithHarFile (filename : String) (loaded : Except String HarFile) : ReplayOption :=
  fun t =>
    match loaded with
    | Except.error e => Except.error e
    | Except.ok har =>
      let t0 := { t with harFiles := mapInsert t.harFiles filename har }
      let res := har.log.entries.foldl
        (fun (acc : ReplayTransport × Option String) entry =>
          match acc.1.cacheEntry entry with
          | Except.ok t2 => (t2, none)
          | Except.error e => (acc.1, some e))
        (t0, none)
      match res.2 with
      | some e => Except.error e
      | none => Except.ok res.1

/-- Apply the options in order, stopping at the first error (the Go loop
returns as soon as an option fails). -/
def applyOptions : List ReplayOption → ReplayTransport → Except String ReplayTransport
  | [], t => Except.ok t
  | o :: os, t =>
    match o t with
    | Except.error e => Except.error e
    | Except.ok t2 => applyOptions os t2

/-- `NewReplayTransport`. -/
def NewReplayTransport (opts : List ReplayOption) : Except String ReplayTransport :=
  applyOptions opts initialReplayTransport

/-- The filter installed by `WithDelHeaderFilter`. -/
def delHeaderFilter (key : String) : RequestFilter :=
  fun r => { r with header := headerDel r.header key }

/-- One section of the report built by the debugger that `WithRoundTripDebugger`
installs, for one cache binding. `differ` stands for the external go-diff
library call (DiffMain followed by DiffPrettyText) applied to the cached and
incoming dumps. -/
def debugSection (differ : String → String → String) (filters : List RequestFilter)
    (reqKey incoming : String) (kv : String × Entry) : String :=
  let cached := RequestToBuff kv.2.request.Factory filters
  "\ncached: " ++ kv.1 ++ "\n" ++ cached ++ "\nincoming: " ++ reqKey ++ "\n" ++ incoming
    ++ "\ndiff:\n" ++ differ cached incoming ++ "\n"

/-- The full report text the debugger builds: it ranges over
`transport.harResponseCache`, a Go map, whose iteration `order` is randomized
per run; the report concatenates one section per binding in that order. The
debugger returns `errors.New` of this text (always a non-nil error). -/
def debugReport (differ : String → String → String) (filters : List RequestFilter)
    (order : List (String × Entry)) (reqKey : String) (request : HttpRequest) : String :=
  let incoming := RequestToBuff request filters
  String.join (order.map (debugSection differ filters reqKey incoming))

/-- `SingleResponseTransport`: always replays the one configured entry. -/
structure SingleResponseTransport where
  entry : Entry

/-- `SingleResponseTransport.RoundTrip` ignores the request. -/
def SingleResponseTransport.RoundTrip (t : SingleResponseTransport) (_ : HttpRequest) :
    Option HttpResponse × Option String :=
  (some t.entry.response.Factory, none)

end Replay

deriving instance DecidableEq for Except

namespace Replay

/-! ## Basic lemmas about the embedding -/

/-- Cloning is value-preserving: the clone equals the request and the original
comes back with its body stream restored to the same remaining content. -/
theorem CloneRequestWithBody_eq (r : HttpRequest) : CloneRequestWithBody r = (r, r) := by
  obtain ⟨m, u, h, p, pj, pn, b, cl, ho⟩ := r
  cases b <;> rfl

/-- HashRequest in closed form: the key is the hex SHA-256 of the dump of the
filtered clone, and the returned original is unchanged. -/
theorem HashRequest_eq (r : HttpRequest) (fs : List RequestFilter) :
    HashRequest r fs = ((DumpRequestOut (applyFilters fs r) r.body.isSome).map sha256Hex, r) := by
  simp only [HashRequest, CloneRequestWithBody_eq]
  cases hd : DumpRequestOut (applyFilters fs r) r.body.isSome <;> simp [hd, Except.map]

/-- Adding then deleting a key that was absent restores the header exactly. -/
theorem headerDelC_headerAddC (h : HttpHeader) (ck v : String)
    (hk : headerHasKeyC h ck = false) : headerDelC ck (headerAddC ck v h) = h := by
  induction h with
  | nil => simp [headerAddC, headerDelC, List.filter]
  | cons kv rest ih =>
    obtain ⟨k1, vs⟩ := kv
    simp only [headerHasKeyC, List.any_cons, Bool.or_eq_false_iff] at hk
    have hne : k1 ≠ ck := by simpa using hk.1
    have ihr := ih (by simpa [headerHasKeyC] using hk.2)
    simp only [headerAddC, if_neg hne, headerDelC, List.filter_cons, ne_eq, decide_not] at ihr ⊢
    simp [hne, ihr]

/-- Looking up the key just written finds the written value. -/
theorem mapLookup_mapInsert {α : Type} (m : List (String × α)) (k : String) (v : α) :
    mapLookup (mapInsert m k v) k = some v := by
  induction m with
  | nil => simp [mapInsert, mapLookup]
  | cons kv rest ih =>
    obtain ⟨k1, v1⟩ := kv
    by_cases h : k1 = k
    · simp [mapInsert, h, mapLookup]
    · simp [mapInsert, h, mapLookup, ih]

/-- Fully reduce an insert at the head key. -/
theorem mapInsert_cons_self {α : Type} (k : String) (v1 v : α) (rest : List (String × α)) :
    mapInsert ((k, v1) :: rest) k v = (k, v) :: rest := by
  simp [mapInsert]

/-- Fully reduce an insert past a different head key. -/
theorem mapInsert_cons_ne {α : Type} (k1 k : String) (v1 : α) (v : α) (rest : List (String × α))
    (h : k1 ≠ k) : mapInsert ((k1, v1) :: rest) k v = (k1, v1) :: mapInsert rest k v := by
  simp [mapInsert, h]

/-- A key bound nowhere in the map survives no filter for it. -/
theorem filter_key_eq_nil {α : Type} (m : List (String × α)) (k : String)
    (h : k ∉ m.map Prod.fst) : m.filter (fun kv => kv.1 = k) = [] := by
  induction m with
  | nil => rfl
  | cons kv rest ih =>
    simp only [List.map_cons, List.mem_cons, not_or] at h
    have hne : kv.1 ≠ k := fun he => h.1 he.symm
    simp [List.filter_cons, hne, ih h.2]

/-- Every key of the written map is the new key or an old key. -/
theorem keys_mapInsert_sub {α : Type} (m : List (String × α)) (k : String) (v : α) :
    ∀ x ∈ (mapInsert m k v).map Prod.fst, x = k ∨ x ∈ m.map Prod.fst := by
  induction m with
  | nil => simp [mapInsert]
  | cons kv rest ih =>
    obtain ⟨k1, v1⟩ := kv
    by_cases h : k1 = k
    · subst h
      rw [mapInsert_cons_self]
      intro x hx
      simp only [List.map_cons, List.mem_cons] at hx ⊢
      tauto
    · rw [mapInsert_cons_ne k1 k v1 v rest h]
      intro x hx
      simp only [List.map_cons, List.mem_cons] at hx ⊢
      rcases hx with hx | hx
      · tauto
      · rcases ih x hx with hx2 | hx2 <;> tauto

/-- Go map assignment keeps the keys unique. -/
theorem nodupKeys_mapInsert {α : Type} (m : List (String × α)) (k : String) (v : α)
    (h : (m.map Prod.fst).Nodup) : ((mapInsert m k v).map Prod.fst).Nodup := by
  induction m with
  | nil => simp [mapInsert]
  | cons kv rest ih =>
    obtain ⟨k1, v1⟩ := kv
    simp only [List.map_cons, List.nodup_cons] at h
    by_cases he : k1 = k
    · subst he
      rw [mapInsert_cons_self]
      simp only [List.map_cons, List.nodup_cons]
      exact h
    · rw [mapInsert_cons_ne k1 k v1 v rest he]
      simp only [List.map_cons, List.nodup_cons]
      refine ⟨fun hmem => ?_, ih h.2⟩
      rcases keys_mapInsert_sub rest k v k1 hmem with h1 | h1
      · exact he h1
      · exact h.1 h1

/-- After writing key `k` into a unique-keyed map, exactly one binding for `k`
remains. -/
theorem filter_mapInsert_length {α : Type} (m : List (String × α)) (k : String) (v : α)
    (h : (m.map Prod.fst).Nodup) :
    ((mapInsert m k v).filter (fun kv => kv.1 = k)).length = 1 := by
  induction m with
  | nil => simp [mapInsert, List.filter]
  | cons kv rest ih =>
    obtain ⟨k1, v1⟩ := kv
    simp only [List.map_cons, List.nodup_cons] at h
    by_cases he : k1 = k
    · subst he
      rw [mapInsert_cons_self]
      simp [List.filter_cons, filter_key_eq_nil rest k1 h.1]
    · rw [mapInsert_cons_ne k1 k v1 v rest he]
      simp [List.filter_cons, he, ih h.2]

/-! ## The serialized header block ignores the order of distinct header names

`Header.writeSubset` sorts the header names; the following lemmas show that the
sorted block, the header lookups, and hence the whole dump are invariant under
any permutation of the entries of a unique-keyed header. -/

/-- Characters with equal code points are equal. -/
theorem charEqOfToNat (a b : Char) (h : a.toNat = b.toNat) : a = b := by
  have hr := Char.ofNat_toNat a
  rw [← hr, h, Char.ofNat_toNat]

/-- Byte-wise comparison is asymmetric. -/
theorem charListLt_asymm : ∀ a b : List Char, charListLt a b = true → charListLt b a = false := by
  intro a
  induction a with
  | nil => intro b h; cases b <;> simp_all [charListLt]
  | cons x xs ih =>
    intro b h
    cases b with
    | nil => simp [charListLt] at h
    | cons y ys =>
      simp only [charListLt] at h ⊢
      by_cases h1 : x.toNat < y.toNat
      · have h2 : ¬ y.toNat < x.toNat := by omega
        simp [h1, h2]
      · by_cases h2 : y.toNat < x.toNat
        · simp [h1, h2] at h
        · simp only [if_neg h1, if_neg h2] at h ⊢
          exact ih ys h

/-- Byte-wise comparison is transitive. -/
theorem charListLt_trans : ∀ a b c : List Char, charListLt a b = true → charListLt b c = true →
    charListLt a c = true := by
  intro a
  induction a with
  | nil =>
    intro b c hab hbc
    cases b with
    | nil => simp [charListLt] at hab
    | cons y ys => cases c with
      | nil => simp [charListLt] at hbc
      | cons z zs => simp [charListLt]
  | cons x xs ih =>
    intro b c hab hbc
    cases b with
    | nil => simp [charListLt] at hab
    | cons y ys =>
      cases c with
      | nil => simp [charListLt] at hbc
      | cons z zs =>
        simp only [charListLt] at hab hbc ⊢
        by_cases hxy : x.toNat < y.toNat
        · by_cases hyz : y.toNat < z.toNat
          · have hxz : x.toNat < z.toNat := by omega
            simp [hxz]
          · by_cases hzy : z.toNat < y.toNat
            · simp [hxy, hyz, hzy] at hbc
            · have hyzn : y.toNat = z.toNat := by omega
              have hxz : x.toNat < z.toNat := by omega
              simp [hxz]
        · by_cases hyx : y.toNat < x.toNat
          · simp [hxy, hyx] at hab
          · have hxyn : x.toNat = y.toNat := by omega
            by_cases hyz : y.toNat < z.toNat
            · have hxz : x.toNat < z.toNat := by omega
              simp [hxz]
            · by_cases hzy : z.toNat < y.toNat
              · simp [hyz, hzy] at hbc
              · have hyzn : y.toNat = z.toNat := by omega
                have h1 : ¬ x.toNat < z.toNat := by omega
                have h2 : ¬ z.toNat < x.toNat := by omega
                simp only [if_neg hxy, if_neg hyx] at hab
                simp only [if_neg hyz, if_neg hzy] at hbc
                simp only [if_neg h1, if_neg h2]
                exact ih ys zs hab hbc

/-- Two byte-wise incomparable lists are equal. -/
theorem charListLt_conn : ∀ a b : List Char, charListLt a b = false → charListLt b a = false →
    a = b := by
  intro a
  induction a with
  | nil =>
    intro b h1 _
    cases b with
    | nil => rfl
    | cons y ys => simp [charListLt] at h1
  | cons x xs ih =>
    intro b h1 h2
    cases b with
    | nil => simp [charListLt] at h2
    | cons y ys =>
      simp only [charListLt] at h1 h2
      by_cases hxy : x.toNat < y.toNat
      · simp [hxy] at h1
      · by_cases hyx : y.toNat < x.toNat
        · simp [hxy, hyx] at h2
        · simp only [if_neg hxy, if_neg hyx] at h1 h2
          have hx : x = y := charEqOfToNat x y (by omega)
          rw [hx, ih ys h1 h2]

theorem stringLt_asymm (a b : String) (h : stringLt a b = true) : stringLt b a = false :=
  charListLt_asymm _ _ h

theorem stringLt_trans (a b c : String) (h1 : stringLt a b = true) (h2 : stringLt b c = true) :
    stringLt a c = true :=
  charListLt_trans _ _ _ h1 h2

theorem stringLt_conn (a b : String) (h1 : stringLt a b = false) (h2 : stringLt b a = false) :
    a = b := by
  have hd : a.data = b.data := charListLt_conn a.toList b.toList h1 h2
  exact congrArg String.mk hd

/-- Two distinct strings compare strictly in one direction. -/
theorem stringLt_total_of_ne (a b : String) (hne : a ≠ b) (h : stringLt a b = false) :
    stringLt b a = true := by
  cases hc : stringLt b a
  · exact absurd (stringLt_conn a b h hc) hne
  · rfl

/-- Inserting two entries with distinct keys into a sorted list commutes. -/
theorem insertSortedHeader_comm (kv kw : String × List String) (hne : kv.1 ≠ kw.1) :
    ∀ l : List (String × List String),
      insertSortedHeader kv (insertSortedHeader kw l)
        = insertSortedHeader kw (insertSortedHeader kv l) := by
  intro l
  induction l with
  | nil =>
    by_cases h1 : stringLt kv.1 kw.1 = true
    · have h2 := stringLt_asymm _ _ h1
      simp [insertSortedHeader, h1, h2]
    · have h1f : stringLt kv.1 kw.1 = false := by simpa using h1
      have h2 := stringLt_total_of_ne kv.1 kw.1 hne h1f
      simp [insertSortedHeader, h1f, h2]
  | cons kx rest ih =>
    by_cases hwx : stringLt kw.1 kx.1 = true
    · by_cases hvx : stringLt kv.1 kx.1 = true
      · by_cases hvw : stringLt kv.1 kw.1 = true
        · have hwv := stringLt_asymm _ _ hvw
          simp [insertSortedHeader, hwx, hvx, hvw, hwv]
        · have hvwf : stringLt kv.1 kw.1 = false := by simpa using hvw
          have hwv := stringLt_total_of_ne kv.1 kw.1 hne hvwf
          simp [insertSortedHeader, hwx, hvx, hvwf, hwv]
      · have hvxf : stringLt kv.1 kx.1 = false := by simpa using hvx
        have hvwf : stringLt kv.1 kw.1 = false := by
          cases hc : stringLt kv.1 kw.1
          · rfl
          · have := stringLt_trans _ _ _ hc hwx
            rw [hvxf] at this
            cases this
        simp [insertSortedHeader, hwx, hvxf, hvwf]
    · have hwxf : stringLt kw.1 kx.1 = false := by simpa using hwx
      by_cases hvx : stringLt kv.1 kx.1 = true
      · have hwvf : stringLt kw.1 kv.1 = false := by
          cases hc : stringLt kw.1 kv.1
          · rfl
          · have := stringLt_trans _ _ _ hc hvx
            rw [hwxf] at this
            cases this
        simp [insertSortedHeader, hwxf, hvx, hwvf]
      · have hvxf : stringLt kv.1 kx.1 = false := by simpa using hvx
        simp [insertSortedHeader, hwxf, hvxf, ih]

/-- Insertion sort by key is invariant under permutations of a unique-keyed
entry list. -/
theorem sortHeaders_perm_invariant :
    ∀ {l1 l2 : List (String × List String)}, l1.Perm l2 →
      (l1.map Prod.fst).Nodup → sortHeaders l1 = sortHeaders l2 := by
  intro l1 l2 hp
  induction hp with
  | nil => intro _; rfl
  | cons x h ih =>
    intro hnd
    simp only [List.map_cons, List.nodup_cons] at hnd
    simp only [sortHeaders]
    rw [ih hnd.2]
  | swap x y l =>
    intro hnd
    simp only [List.map_cons, List.nodup_cons, List.mem_cons] at hnd
    have hxy : y.1 ≠ x.1 := fun he => hnd.1 (Or.inl he)
    simp only [sortHeaders]
    exact insertSortedHeader_comm y x hxy (sortHeaders l)
  | trans h1 h2 ih1 ih2 =>
    intro hnd
    rw [ih1 hnd, ih2 ((h1.map Prod.fst).nodup_iff.mp hnd)]

/-- `any` is permutation-invariant. -/
theorem perm_any {α : Type} {l1 l2 : List α} (hp : l1.Perm l2) (p : α → Bool) :
    l1.any p = l2.any p := by
  cases h1 : l1.any p <;> cases h2 : l2.any p
  · rfl
  · rw [List.any_eq_true] at h2
    obtain ⟨x, hx, hpx⟩ := h2
    have := List.any_eq_true.mpr ⟨x, hp.mem_iff.mpr hx, hpx⟩
    rw [h1] at this
    cases this
  · rw [List.any_eq_true] at h1
    obtain ⟨x, hx, hpx⟩ := h1
    have := List.any_eq_true.mpr ⟨x, hp.mem_iff.mp hx, hpx⟩
    rw [h2] at this
    cases this
  · rfl

/-- Key lookup by `find?` is permutation-invariant on a unique-keyed list. -/
theorem find?_key_perm {α : Type} :
    ∀ {l1 l2 : List (String × α)}, l1.Perm l2 → (l1.map Prod.fst).Nodup →
      ∀ k : String, l1.find? (fun kv => kv.1 = k) = l2.find? (fun kv => kv.1 = k) := by
  intro l1 l2 hp
  induction hp with
  | nil => intro _ _; rfl
  | cons x h ih =>
    intro hnd k
    simp only [List.map_cons, List.nodup_cons] at hnd
    by_cases hx : x.1 = k
    · simp [List.find?_cons, hx]
    · simp [List.find?_cons, hx, ih hnd.2 k]
  | swap x y l =>
    intro hnd k
    simp only [List.map_cons, List.nodup_cons, List.mem_cons] at hnd
    have hxy : y.1 ≠ x.1 := fun he => hnd.1 (Or.inl he)
    by_cases hx : x.1 = k <;> by_cases hy : y.1 = k
    · exact absurd (hy.trans hx.symm) hxy
    · simp [List.find?_cons, hx, hy]
    · simp [List.find?_cons, hx, hy]
    · simp [List.find?_cons, hx, hy]
  | trans h1 h2 ih1 ih2 =>
    intro hnd k
    rw [ih1 hnd k, ih2 ((h1.map Prod.fst).nodup_iff.mp hnd) k]

/-- Keys of a filtered list stay unique. -/
theorem nodup_keys_filter (h : HttpHeader) (p : String × List String → Bool)
    (hnd : (h.map Prod.fst).Nodup) : ((h.filter p).map Prod.fst).Nodup :=
  ((List.filter_sublist h).map Prod.fst).nodup hnd

/-- Header.Get sees through a permutation of a unique-keyed header. -/
theorem headerGet_perm (h1 h2 : HttpHeader) (hp : h1.Perm h2)
    (hnd : (h1.map Prod.fst).Nodup) (k : String) : headerGet h1 k = headerGet h2 k := by
  unfold headerGet
  rw [find?_key_perm hp hnd (canonicalMIMEHeaderKey k)]

/-- Key membership sees through a permutation. -/
theorem headerHasKey_perm (h1 h2 : HttpHeader) (hp : h1.Perm h2) (k : String) :
    headerHasKey h1 k = headerHasKey h2 k :=
  perm_any hp _

/-- The sorted header block is invariant under permutations of a unique-keyed
header. -/
theorem headerBlock_perm (h1 h2 : HttpHeader) (hp : h1.Perm h2)
    (hnd : (h1.map Prod.fst).Nodup) : headerBlock h1 = headerBlock h2 := by
  unfold headerBlock
  rw [sortHeaders_perm_invariant (hp.filter _) (nodup_keys_filter h1 _ hnd)]

/-- The whole dump is invariant under permutations of a unique-keyed header. -/
theorem DumpRequestOut_header_perm (r : HttpRequest) (h2 : HttpHeader) (b : Bool)
    (hp : r.header.Perm h2) (hnd : (r.header.map Prod.fst).Nodup) :
    DumpRequestOut { r with header := h2 } b = DumpRequestOut r b := by
  have hget : ∀ k, headerGet h2 k = headerGet r.header k :=
    fun k => (headerGet_perm r.header h2 hp hnd k).symm
  have hhas : ∀ k, headerHasKey h2 k = headerHasKey r.header k :=
    fun k => (headerHasKey_perm r.header h2 hp k).symm
  have hblock : headerBlock h2 = headerBlock r.header :=
    (headerBlock_perm r.header h2 hp hnd).symm
  cases hu : r.url with
  | none => simp [DumpRequestOut, hu]
  | some u => simp only [DumpRequestOut, hu, hget, hhas, hblock]

/-- A filter that only permutes the entries of a unique-keyed header never
changes the fingerprint: HashRequest with that one filter returns the key of
the unfiltered request. -/
theorem HashRequest_ignores_header_entry_reorder (r : HttpRequest) (f : RequestFilter)
    (hf : f r = { r with header := (f r).header })
    (hperm : r.header.Perm (f r).header)
    (hnd : (r.header.map Prod.fst).Nodup) :
    (HashRequest r [f]).1 = (HashRequest r []).1 := by
  rw [HashRequest_eq, HashRequest_eq]
  have ha : applyFilters [f] r = f r := rfl
  show (Except.map sha256Hex (DumpRequestOut (applyFilters [f] r) r.body.isSome)) = _
  rw [ha, hf, DumpRequestOut_header_perm r (f r).header r.body.isSome hperm hnd]
  rfl

/-! ## The debug report starts with the first iterated cache key

Whatever the external differ returns, the report text the debugger builds
begins with the section of the first binding in iteration order, and that
section starts with the text `cached:` followed by that binding's key: reports
generated under iteration orders that lead with different keys differ as
strings. -/

/-- Taking at most the length of the left part of an append stays within it. -/
theorem take11_append {α : Type} (l1 l2 : List α) (h : 11 ≤ l1.length) :
    (l1 ++ l2).take 11 = l1.take 11 := by
  rw [List.take_append_eq_append_take]
  have h0 : 11 - l1.length = 0 := by omega
  simp [h0]

/-- One step down the left spine of appended strings. -/
theorem take11_left_spine (s t : String) (h : 11 ≤ s.data.length) :
    ((s ++ t).data.take 11 = s.data.take 11) ∧ 11 ≤ (s ++ t).data.length := by
  constructor
  · show (s.data ++ t.data).take 11 = s.data.take 11
    exact take11_append _ _ h
  · show 11 ≤ (s.data ++ t.data).length
    rw [List.length_append]
    omega

/-- Folding more strings onto a long accumulator never changes its first
characters. -/
theorem take11_foldl (l : List String) : ∀ acc : String, 11 ≤ acc.data.length →
    (l.foldl (fun r s => r ++ s) acc).data.take 11 = acc.data.take 11 := by
  induction l with
  | nil => intro acc _; rfl
  | cons a l ih =>
    intro acc h
    have hs := take11_left_spine acc a h
    rw [List.foldl_cons, ih (acc ++ a) hs.2, hs.1]

/-- The first characters of a joined list are those of its first element. -/
theorem take11_join_cons (s : String) (l : List String) (h : 11 ≤ s.data.length) :
    (String.join (s :: l)).data.take 11 = s.data.take 11 := by
  show ((s :: l).foldl (fun r s => r ++ s) "").data.take 11 = s.data.take 11
  rw [List.foldl_cons]
  exact take11_foldl l ("" ++ s) h

/-- The first eleven characters of a non-empty report are `cached:` plus the
leading characters of the first iterated key, independent of the differ. -/
theorem report_leading_chars (differ : String → String → String) (fs : List RequestFilter)
    (reqKey incoming : String) (kv : String × Entry) (tail : List (String × Entry))
    (h11 : 11 ≤ ("\ncached: " ++ kv.1).data.length) :
    (String.join ((kv :: tail).map (debugSection differ fs reqKey incoming))).data.take 11
      = ("\ncached: " ++ kv.1).data.take 11 := by
  have t1 := take11_left_spine ("\ncached: " ++ kv.1) "\n" h11
  have t2 := take11_left_spine (("\ncached: " ++ kv.1) ++ "\n")
    (RequestToBuff kv.2.request.Factory fs) t1.2
  have t3 := take11_left_spine _ "\nincoming: " t2.2
  have t4 := take11_left_spine _ reqKey t3.2
  have t5 := take11_left_spine _ "\n" t4.2
  have t6 := take11_left_spine _ incoming t5.2
  have t7 := take11_left_spine _ "\ndiff:\n" t6.2
  have t8 := take11_left_spine _
    (differ (RequestToBuff kv.2.request.Factory fs) incoming) t7.2
  have t9 := take11_left_spine _ "\n" t8.2
  rw [List.map_cons,
    take11_join_cons (debugSection differ fs reqKey incoming kv)
      (tail.map (debugSection differ fs reqKey incoming)) t9.2]
  show ((((((((("\ncached: " ++ kv.1) ++ "\n") ++ RequestToBuff kv.2.request.Factory fs)
      ++ "\nincoming: ") ++ reqKey) ++ "\n") ++ incoming) ++ "\ndiff:\n")
      ++ differ (RequestToBuff kv.2.request.Factory fs) incoming ++ "\n").data.take 11 = _
  rw [t9.1, t8.1, t7.1, t6.1, t5.1, t4.1, t3.1, t2.1, t1.1]

/-! ## Model validation against the repository test suite

The five fingerprints hard-coded in `replay_http_test.go` are reproduced
exactly by the embedding, pinning the serialization model byte-for-byte to
what the Go code computes on every test input of the repository. -/

/-- `newTestRequest` of replay_http_test.go: a POST to
https://www.example.com/example/path with empty headers and an empty non-nil
body. -/
def testReq : HttpRequest :=
  { method := "POST"
    url := some { scheme := "https", host := "www.example.com", path := "/example/path", query := "" }
    header := []
    proto := ""
    protoMajor := 0
    protoMinor := 0
    body := some ""
    contentLength := 0
    host := "www.example.com" }

/-- Test vector 1: should hash request. -/
theorem validation_hash_baseline :
    (HashRequest testReq []).1
      = Except.ok "b54b28b27aee90c17f06e30d05ea0b90cbc1e611702bdf423f01ee8b1f790d86" := by
  decide

/-- Test vector 2: should hash request with additional header. -/
theorem validation_hash_extra_header :
    (HashRequest { testReq with header := headerAdd testReq.header "X-Test-Header" "test header value" } []).1
      = Except.ok "ca809a4c13223bff746882001cab31208094c8d97eaba5f53632053fda492ab6" := by
  decide

/-- Request recorder middleware test vector: GET https://example.com/v1/resource
with no body. -/
theorem validation_hash_recorder_get :
    (HashRequest
      { method := "GET"
        url := some { scheme := "https", host := "example.com", path := "/v1/resource", query := "" }
        header := [], proto := "HTTP/1.1", protoMajor := 1, protoMinor := 1
        body := none, contentLength := 0, host := "example.com" } []).1
      = Except.ok "8f34da1cdd7de57aba9591986c6a991672044a47a816944bd20eb3a2bd66a2a0" := by
  decide

/-- Request recorder middleware test vector: POST https://example.com/v1/resource/new
with a JSON body. -/
theorem validation_hash_recorder_post :
    (HashRequest
      { method := "POST"
        url := some { scheme := "https", host := "example.com", path := "/v1/resource/new", query := "" }
        header := [], proto := "HTTP/1.1", protoMajor := 1, protoMinor := 1
        body := some "\x7b\"name\":\"test\"\x7d", contentLength := 15, host := "example.com" } []).1
      = Except.ok "eb30fea141f725770a80ef7228996368ca274b2845214fa1e59ca89e3f476aa7" := by
  decide

/-! ## Concrete inputs used by the claim theorems and witnesses -/

/-- A plain GET request with no body and an empty header. -/
def reqC1 : HttpRequest :=
  { method := "GET"
    url := some { scheme := "http", host := "example.com", path := "/", query := "" }
    header := [], proto := "HTTP/1.1", protoMajor := 1, protoMinor := 1
    body := none, contentLength := 0, host := "example.com" }

/-- A recorded interaction: GET http://h/p with a Host header, whose response
carries status 200, one header, and base64 body "aGk=" (the bytes of "hi"). -/
def entryC2 : Entry :=
  { request := { method := "GET", postData := { text := "", mimeType := "" },
                 headers := [{ name := "Host", value := "h" }], httpVersion := "HTTP/1.1",
                 url := "http://h/p" }
    response := { status := 200
                  content := { size := 2, mimeType := "text/plain", encoding := "base64", text := "aGk=" }
                  statusText := "200 OK"
                  headers := [{ name := "Content-Type", value := "text/plain" }]
                  httpVersion := "HTTP/1.1" } }

/-- The fingerprint of the request of `entryC2` under no filters. -/
def kC2 : String := "ea46ccd8257df45c550033f60821a6b588ad8a40b0b69bf9e990e7257d7d740a"

/-- A transport whose cache holds `entryC2` under its fingerprint. -/
def tC2 : ReplayTransport :=
  { harFiles := [], harResponseCache := [(kC2, entryC2)], requestFilters := [], debugger := none }

/-- The recorded request shared by the two colliding C8 entries. -/
def reqC8 : HarRequest :=
  { method := "GET", postData := { text := "", mimeType := "" }, headers := [],
    httpVersion := "HTTP/1.1", url := "http://c8/a" }

/-- First interaction recorded for `reqC8`. -/
def entryC8a : Entry :=
  { request := reqC8
    response := { status := 200, content := { size := 0, mimeType := "", encoding := "", text := "" },
                  statusText := "200 OK", headers := [], httpVersion := "HTTP/1.1" } }

/-- Second interaction recorded for `reqC8`, with a different response. -/
def entryC8b : Entry :=
  { request := reqC8
    response := { status := 201, content := { size := 0, mimeType := "", encoding := "", text := "" },
                  statusText := "201 Created", headers := [], httpVersion := "HTTP/1.1" } }

/-- The fingerprint of `reqC8` under no filters. -/
def kC8 : String := "b569e2c67185ddefee718bfe8ce298fa34d580dba8033b62fe5b435b45f57b17"

/-- An entry whose recorded URL has an ftp scheme: the transport serializer
rejects it, so hashing the entry fails. -/
def badC7 : Entry :=
  { request := { method := "GET", postData := { text := "", mimeType := "" }, headers := [],
                 httpVersion := "HTTP/1.1", url := "ftp://bad/x" }
    response := { status := 500, content := { size := 0, mimeType := "", encoding := "", text := "" },
                  statusText := "500", headers := [], httpVersion := "HTTP/1.1" } }

/-- A well-formed entry. -/
def goodC7 : Entry :=
  { request := { method := "GET", postData := { text := "", mimeType := "" }, headers := [],
                 httpVersion := "HTTP/1.1", url := "http://good/x" }
    response := { status := 200, content := { size := 0, mimeType := "", encoding := "", text := "" },
                  statusText := "200 OK", headers := [], httpVersion := "HTTP/1.1" } }

/-- A HAR file whose first entry fails to key and whose second succeeds. -/
def harC7 : HarFile := { log := { version := "1.2", entries := [badC7, goodC7] } }

/-- A request carrying two distinct headers A and B. -/
def rAB : HttpRequest :=
  { method := "GET", url := some { scheme := "http", host := "h", path := "/x", query := "" }
    header := [("A", ["1"]), ("B", ["2"])], proto := "HTTP/1.1", protoMajor := 1, protoMinor := 1
    body := none, contentLength := 0, host := "h" }

/-- A filter that only reorders the header entries. -/
def swapFilter : RequestFilter := fun r => { r with header := r.header.reverse }

/-- A request carrying one header name with two values. -/
def rMulti : HttpRequest :=
  { method := "GET", url := some { scheme := "http", host := "h", path := "/x", query := "" }
    header := [("X-M", ["a", "b"])], proto := "HTTP/1.1", protoMajor := 1, protoMinor := 1
    body := none, contentLength := 0, host := "h" }

/-- A filter that only reorders the two values of the X-M header. -/
def revValuesFilter : RequestFilter := fun r => { r with header := [("X-M", ["b", "a"])] }

/-- A filter that appends a header value to ZZZ-method requests: the one-filter
pipeline built from it is not idempotent. -/
def addXAFilter : RequestFilter :=
  fun r => if r.method = "ZZZ" then { r with header := headerAdd r.header "X-A" "1" } else r

/-- A request the `addXAFilter` pipeline is not idempotent on. -/
def zReq : HttpRequest :=
  { method := "ZZZ", url := some { scheme := "http", host := "h", path := "/", query := "" }
    header := [], proto := "HTTP/1.1", protoMajor := 1, protoMinor := 1
    body := none, contentLength := 0, host := "h" }

/-- A request the `addXAFilter` pipeline leaves unchanged. -/
def rGETC10 : HttpRequest :=
  { method := "GET", url := some { scheme := "http", host := "h", path := "/", query := "" }
    header := [], proto := "HTTP/1.1", protoMajor := 1, protoMinor := 1
    body := none, contentLength := 0, host := "h" }

/-- A stand-in for the external diff renderer: the report nondeterminism under
scrutiny comes from the map iteration order, not from the differ. -/
def differ0 : String → String → String := fun _ _ => ""

/-- First cached interaction for the C9 report. -/
def entryC9a : Entry :=
  { request := { method := "GET", postData := { text := "", mimeType := "" }, headers := [],
                 httpVersion := "HTTP/1.1", url := "http://c9/1" }
    response := { status := 200, content := { size := 0, mimeType := "", encoding := "", text := "" },
                  statusText := "200 OK", headers := [], httpVersion := "HTTP/1.1" } }

/-- Second cached interaction for the C9 report. -/
def entryC9b : Entry :=
  { request := { method := "GET", postData := { text := "", mimeType := "" }, headers := [],
                 httpVersion := "HTTP/1.1", url := "http://c9/2" }
    response := { status := 404, content := { size := 0, mimeType := "", encoding := "", text := "" },
                  statusText := "404 Not Found", headers := [], httpVersion := "HTTP/1.1" } }

/-- A two-entry cache content for the C9 report. -/
def cacheC9 : List (String × Entry) := [("k1", entryC9a), ("k2", entryC9b)]

/-- The failing request the C9 report is generated for. -/
def reqC9 : HttpRequest :=
  { method := "GET", url := some { scheme := "http", host := "c9", path := "/miss", query := "" }
    header := [], proto := "HTTP/1.1", protoMajor := 1, protoMinor := 1
    body := none, contentLength := 0, host := "c9" }

/-- Whatever function the external differ computes, iterating the two cache
bindings of `cacheC9` in the two orders yields different report text: the
eleventh character of the report is the second character of the first iterated
key. -/
theorem debugReport_order_sensitive (differ : String → String → String) :
    debugReport differ [] cacheC9.reverse "rk" reqC9
      ≠ debugReport differ [] cacheC9 "rk" reqC9 := by
  intro h
  have h11 := congrArg (fun s : String => s.data.take 11) h
  have e1 : debugReport differ [] cacheC9.reverse "rk" reqC9
      = String.join ([("k2", entryC9b), ("k1", entryC9a)].map
          (debugSection differ [] "rk" (RequestToBuff reqC9 []))) := rfl
  have e2 : debugReport differ [] cacheC9 "rk" reqC9
      = String.join ([("k1", entryC9a), ("k2", entryC9b)].map
          (debugSection differ [] "rk" (RequestToBuff reqC9 []))) := rfl
  simp only [e1, e2] at h11
  rw [report_leading_chars differ [] "rk" (RequestToBuff reqC9 []) ("k2", entryC9b)
        [("k1", entryC9a)] (by decide),
      report_leading_chars differ [] "rk" (RequestToBuff reqC9 []) ("k1", entryC9a)
        [("k2", entryC9b)] (by decide)] at h11
  exact absurd h11 (by decide)

/-- On a miss with no debugger installed, RoundTrip always returns a nil
response AND a nil error, whatever the transport and request: the
Wrapf-on-nil slip is not tied to one input. -/
theorem roundTrip_miss_without_debugger (t : ReplayTransport) (req : HttpRequest) (k : String)
    (hd : t.debugger = none)
    (hk : (HashRequest (applyFilters t.requestFilters req) t.requestFilters).1 = Except.ok k)
    (hc : mapLookup t.harResponseCache k = none) :
    t.RoundTrip req = (none, none) := by
  simp only [ReplayTransport.RoundTrip, hk, hc, hd, errorsWrap]

/-! ## The claims -/

/-- C1 (code bug): on a cache miss with no debugger configured, `RoundTrip`
builds its error with `errors.Wrapf(err, ...)` while `err` is nil, and
pkg/errors returns nil for a nil argument: the call returns a nil response AND
a nil error, instead of the non-nil error carrying the fingerprint that the
claim (and the spec) requires. The theorem evaluates the code at the failing
input: an empty cache, no debugger, and a plain GET request. -/
theorem C1_miss_without_debugger_is_silent :
    initialReplayTransport.debugger = none ∧
    initialReplayTransport.harResponseCache = [] ∧
    ReplayTransport.RoundTrip initialReplayTransport reqC1 = (none, none) :=
  ⟨rfl, rfl, by decide⟩

/-- C2: when the fingerprint RoundTrip computes for the (filtered) live request
is bound to an entry in the cache, RoundTrip returns exactly the response
materialized from that entry with a nil error, and the materialized response
carries the recorded status code, status text, headers, and the base64-decoded
recorded content as its body. -/
theorem C2_cache_hit_replays_recorded_response (t : ReplayTransport) (req : HttpRequest)
    (k : String) (entry : Entry)
    (hk : (HashRequest (applyFilters t.requestFilters req) t.requestFilters).1 = Except.ok k)
    (hc : mapLookup t.harResponseCache k = some entry) :
    t.RoundTrip req = (some entry.response.Factory, none) ∧
    entry.response.Factory.statusCode = entry.response.status ∧
    entry.response.Factory.status = entry.response.statusText ∧
    entry.response.Factory.header = ToHTTPHeader entry.response.headers ∧
    entry.response.Factory.body = bytesToStr (base64Decode entry.response.content.text).1 := by
  refine ⟨?_, rfl, rfl, rfl, rfl⟩
  simp only [ReplayTransport.RoundTrip, hk, hc]

/-- Witness for C2 at a concrete transport and request. -/
theorem C2_cache_hit_replays_recorded_response_witness :
    (HashRequest (applyFilters tC2.requestFilters entryC2.request.Factory) tC2.requestFilters).1
        = Except.ok kC2 ∧
    mapLookup tC2.harResponseCache kC2 = some entryC2 ∧
    tC2.RoundTrip entryC2.request.Factory = (some entryC2.response.Factory, none) :=
  ⟨by decide, by decide,
    (C2_cache_hit_replays_recorded_response tC2 entryC2.request.Factory kC2 entryC2
      (by decide) (by decide)).1⟩

/-- C3: fingerprinting is a pure function of the request value and the filter
list. Moreover a second call on the request handed back by a first call (whose
body stream the clone step restored) yields the same key: repeated calls on an
unmodified-equivalent request agree. -/
theorem C3_hashRequest_pure :
    (∀ (r1 r2 : HttpRequest) (fs : List RequestFilter), r1 = r2 →
        (HashRequest r1 fs).1 = (HashRequest r2 fs).1) ∧
    (∀ (r : HttpRequest) (fs : List RequestFilter),
        (HashRequest (HashRequest r fs).2 fs).1 = (HashRequest r fs).1) := by
  constructor
  · intro r1 r2 fs h
    rw [h]
  · intro r fs
    simp only [HashRequest_eq]

/-- Witness for C3 at a concrete request. -/
theorem C3_hashRequest_pure_witness :
    (HashRequest reqC1 []).1 = (HashRequest reqC1 []).1 ∧
    (HashRequest (HashRequest reqC1 []).2 []).1 = (HashRequest reqC1 []).1 :=
  ⟨C3_hashRequest_pure.1 reqC1 reqC1 [] rfl, C3_hashRequest_pure.2 reqC1 []⟩

/-- C4: HashRequest hands the original request back unchanged on every path:
its body stream still holds the same remaining bytes (readable in full,
byte-for-byte identical to before the call), and the whole request value is
untouched, hence resendable. -/
theorem C4_hashRequest_nondestructive :
    ∀ (r : HttpRequest) (fs : List RequestFilter),
      ((HashRequest r fs).2).body = r.body ∧ (HashRequest r fs).2 = r := by
  intro r fs
  rw [HashRequest_eq]
  exact ⟨rfl, rfl⟩

/-- C5: for a request without header H, hashing the request with H added under
a filter that deletes H yields the same key as hashing the original request
with no filters. -/
theorem C5_redaction_commutes (r : HttpRequest) (H v : String)
    (hH : headerHasKey r.header H = false) :
    (HashRequest { r with header := headerAdd r.header H v } [delHeaderFilter H]).1
      = (HashRequest r []).1 := by
  have hdel : headerDel (headerAdd r.header H v) H = r.header :=
    headerDelC_headerAddC r.header (canonicalMIMEHeaderKey H) v hH
  have hreq : applyFilters [delHeaderFilter H] { r with header := headerAdd r.header H v } = r := by
    simp only [applyFilters, List.foldl_cons, List.foldl_nil, delHeaderFilter]
    rw [hdel]
  rw [HashRequest_eq, HashRequest_eq, hreq]
  rfl

/-- Witness for C5 on the scenario of the repository test: the test request
with no X-Test-Header, the header value the test adds, and the delete filter. -/
theorem C5_redaction_commutes_witness :
    headerHasKey testReq.header "X-Test-Header" = false ∧
    (HashRequest { testReq with header := headerAdd testReq.header "X-Test-Header" "test header value" }
        [delHeaderFilter "X-Test-Header"]).1
      = (HashRequest testReq []).1 :=
  ⟨by decide, C5_redaction_commutes testReq "X-Test-Header" "test header value" (by decide)⟩

/-- C6 counterexample: the serialization does NOT preserve header order as
encountered. `Header.writeSubset` sorts the header names before writing, so a
filter that only reorders two distinct headers (here reversing the entry list
of `rAB`, which visibly changes the request value) leaves the fingerprint
unchanged, against the claim that it changes it. -/
theorem C6_name_reorder_keeps_fingerprint :
    applyFilters [swapFilter] rAB ≠ rAB ∧
    (HashRequest rAB [swapFilter]).1 = (HashRequest rAB []).1 :=
  ⟨by decide, by decide⟩

/-- C6 amended: the canonical serialization sorts header names (Header.writeSubset),
so a filter that only permutes the entries of a unique-keyed header can never
change the fingerprint; what the serialization does preserve is the order of
the values recorded under one name, so reordering the two values of the X-M
header does change the fingerprint. -/
theorem C6_sorted_names_value_order_sensitivity :
    (∀ (r : HttpRequest) (f : RequestFilter),
        f r = { r with header := (f r).header } →
        r.header.Perm (f r).header →
        (r.header.map Prod.fst).Nodup →
        (HashRequest r [f]).1 = (HashRequest r []).1) ∧
    (HashRequest rMulti [revValuesFilter]).1 ≠ (HashRequest rMulti []).1 :=
  ⟨HashRequest_ignores_header_entry_reorder, by decide⟩

/-- Witness for C6 amended: the reversing filter on the two distinct headers of
`rAB` satisfies the reorder-only hypotheses, and the key is unchanged. -/
theorem C6_sorted_names_value_order_sensitivity_witness :
    swapFilter rAB = { rAB with header := (swapFilter rAB).header } ∧
    rAB.header.Perm (swapFilter rAB).header ∧
    (rAB.header.map Prod.fst).Nodup ∧
    (HashRequest rAB [swapFilter]).1 = (HashRequest rAB []).1 :=
  ⟨by decide, by decide, by decide,
    C6_sorted_names_value_order_sensitivity.1 rAB swapFilter
      (by decide) (by decide) (by decide)⟩

/-- C7 (code bug): `WithHarFile` runs
`for _, entry := range entries { err = transport.cacheEntry(entry) }` and
returns the last `err` only: an entry failure followed by a successful entry is
swallowed. On a HAR file whose first entry cannot be keyed (its URL scheme is
rejected by the serializer) and whose second entry is fine, NewReplayTransport
reports success and serves a cache holding one of the two entries, instead of
failing the whole build as the claim (and the spec) requires. -/
theorem C7_entry_failure_swallowed :
    harC7.log.entries.length = 2 ∧
    (initialReplayTransport.cacheEntry badC7).map (fun t => t.harResponseCache.length)
        = Except.error "http: unsupported protocol scheme ftp" ∧
    (NewReplayTransport [WithHarFile "c7.har" (Except.ok harC7)]).map
        (fun t => t.harResponseCache.length) = Except.ok 1 :=
  ⟨rfl, by decide, by decide⟩

/-- C8: caching two interactions that key to the same fingerprint raises no
error; the second write silently replaces the first, so the cache holds exactly
one binding for that fingerprint, and looking it up yields the later
interaction. -/
theorem C8_last_write_wins (t : ReplayTransport) (e1 e2 : Entry) (k : String)
    (h1 : (HashRequest e1.request.Factory t.requestFilters).1 = Except.ok k)
    (h2 : (HashRequest e2.request.Factory t.requestFilters).1 = Except.ok k)
    (hnd : (t.harResponseCache.map Prod.fst).Nodup) :
    ∃ t1 t2 : ReplayTransport,
      t.cacheEntry e1 = Except.ok t1 ∧
      t1.cacheEntry e2 = Except.ok t2 ∧
      mapLookup t2.harResponseCache k = some e2 ∧
      (t2.harResponseCache.filter (fun kv => kv.1 = k)).length = 1 := by
  refine ⟨{ t with harResponseCache := mapInsert t.harResponseCache k e1 },
    { t with harResponseCache := mapInsert (mapInsert t.harResponseCache k e1) k e2 },
    ?_, ?_, ?_, ?_⟩
  · simp only [ReplayTransport.cacheEntry, h1]
  · have h2a : (HashRequest e2.request.Factory
        ({ t with harResponseCache := mapInsert t.harResponseCache k e1 }
          : ReplayTransport).requestFilters).1 = Except.ok k := h2
    simp only [ReplayTransport.cacheEntry, h2a]
  · exact mapLookup_mapInsert _ k e2
  · exact filter_mapInsert_length _ k e2 (nodupKeys_mapInsert _ k e1 hnd)

/-- Witness for C8: the two colliding entries recorded for `reqC8` on the fresh
transport. -/
theorem C8_last_write_wins_witness :
    (HashRequest entryC8a.request.Factory initialReplayTransport.requestFilters).1 = Except.ok kC8 ∧
    (HashRequest entryC8b.request.Factory initialReplayTransport.requestFilters).1 = Except.ok kC8 ∧
    (initialReplayTransport.harResponseCache.map Prod.fst).Nodup ∧
    ∃ t1 t2 : ReplayTransport,
      initialReplayTransport.cacheEntry entryC8a = Except.ok t1 ∧
      t1.cacheEntry entryC8b = Except.ok t2 ∧
      mapLookup t2.harResponseCache kC8 = some entryC8b ∧
      (t2.harResponseCache.filter (fun kv => kv.1 = kC8)).length = 1 :=
  ⟨by decide, by decide, by decide,
    C8_last_write_wins initialReplayTransport entryC8a entryC8b kC8
      (by decide) (by decide) (by decide)⟩

/-- C9 counterexample: the report the debugger builds ranges over the Go map
`harResponseCache`, whose iteration order is randomized per run. For the same
failing request, filter pipeline, and cache contents, two iteration orders of
the same two bindings yield different report text: the output is not
character-for-character deterministic. -/
theorem C9_report_order_dependent :
    (cacheC9.reverse).Perm cacheC9 ∧
    debugReport differ0 [] cacheC9.reverse "rk" reqC9
      ≠ debugReport differ0 [] cacheC9 "rk" reqC9 :=
  ⟨by decide, by decide⟩

/-- C9 amended: for a fixed iteration order the report is a pure function of
its inputs (the concatenation of one section per binding), and any two
iteration orders of the same cache contents produce the same multiset of
per-entry sections: the report is deterministic up to the order Go happens to
iterate the map in, and in particular fully deterministic for caches with at
most one entry. -/
theorem C9_report_sections_permutation (differ : String → String → String)
    (fs : List RequestFilter) (reqKey : String) (req : HttpRequest)
    (o1 o2 : List (String × Entry)) (h : o1.Perm o2) :
    debugReport differ fs o1 reqKey req
        = String.join (o1.map (debugSection differ fs reqKey (RequestToBuff req fs)))
      ∧ (o1.map (debugSection differ fs reqKey (RequestToBuff req fs))).Perm
          (o2.map (debugSection differ fs reqKey (RequestToBuff req fs))) :=
  ⟨rfl, h.map _⟩

/-- Witness for C9 amended at a concrete order. -/
theorem C9_report_sections_permutation_witness :
    ([("k1", entryC9a)] : List (String × Entry)).Perm [("k1", entryC9a)] ∧
    (debugReport differ0 [] [("k1", entryC9a)] "rk" reqC9
        = String.join ([("k1", entryC9a)].map
            (debugSection differ0 [] "rk" (RequestToBuff reqC9 [])))
      ∧ ([("k1", entryC9a)].map (debugSection differ0 [] "rk" (RequestToBuff reqC9 []))).Perm
          ([("k1", entryC9a)].map (debugSection differ0 [] "rk" (RequestToBuff reqC9 [])))) :=
  ⟨List.Perm.refl _,
    C9_report_sections_permutation differ0 [] "rk" reqC9
      [("k1", entryC9a)] [("k1", entryC9a)] (List.Perm.refl _)⟩

/-- C10 counterexample: the keys can agree although the pipeline is not
idempotent. The one-filter pipeline `[addXAFilter]` is not idempotent (applying
it twice to `zReq` differs from applying it once), yet for the recorded request
`rGETC10` the live-request lookup key (filters applied in place, then again
inside HashRequest) equals the stored cache key (filters applied once, inside
HashRequest only): key equality does not require an idempotent pipeline. -/
theorem C10_keys_agree_without_global_idempotence :
    applyFilters [addXAFilter] (applyFilters [addXAFilter] zReq)
        ≠ applyFilters [addXAFilter] zReq ∧
    (HashRequest (applyFilters [addXAFilter] rGETC10) [addXAFilter]).1
      = (HashRequest rGETC10 [addXAFilter]).1 := by
  refine ⟨by decide, ?_⟩
  have h : applyFilters [addXAFilter] rGETC10 = rGETC10 := by decide
  rw [h]

/-- C10 amended: RoundTrip hashes the twice-filtered request while cacheEntry
hashes the once-filtered one. First conjunct: cacheEntry keys an entry by one
HashRequest application to the materialized recorded request. Second: the key
RoundTrip computes for a live request (already filtered in place) is the hash
of the dump of the twice-filtered request. Third: the live key equals the
stored key whenever the pipeline is idempotent on that request and preserves
its body-presence flag. -/
theorem C10_double_filtering :
    (∀ (t : ReplayTransport) (e : Entry),
        t.cacheEntry e =
          match (HashRequest e.request.Factory t.requestFilters).1 with
          | Except.error e1 => Except.error e1
          | Except.ok k =>
            Except.ok { t with harResponseCache := mapInsert t.harResponseCache k e }) ∧
    (∀ (fs : List RequestFilter) (r : HttpRequest),
        (HashRequest (applyFilters fs r) fs).1
          = (DumpRequestOut (applyFilters fs (applyFilters fs r))
              (applyFilters fs r).body.isSome).map sha256Hex) ∧
    (∀ (fs : List RequestFilter) (r : HttpRequest),
        applyFilters fs (applyFilters fs r) = applyFilters fs r →
        (applyFilters fs r).body.isSome = r.body.isSome →
        (HashRequest (applyFilters fs r) fs).1 = (HashRequest r fs).1) := by
  refine ⟨fun t e => rfl, fun fs r => ?_, fun fs r h1 h2 => ?_⟩
  · rw [HashRequest_eq]
  · rw [HashRequest_eq, HashRequest_eq, h1, h2]

/-- Witness for C10 amended: the empty pipeline is idempotent on `reqC9` and
preserves its body flag, and the keys coincide. -/
theorem C10_double_filtering_witness :
    applyFilters [] (applyFilters [] reqC9) = applyFilters [] reqC9 ∧
    (applyFilters [] reqC9).body.isSome = reqC9.body.isSome ∧
    (HashRequest (applyFilters [] reqC9) []).1 = (HashRequest reqC9 []).1 :=
  ⟨rfl, rfl, C10_double_filtering.2.2 [] reqC9 rfl rfl⟩

end Replay
